import Mathlib

/-!
Verification of the PutCallParity quiz engine (src/game.py).

The source is embedded shallowly over exact rationals:

* `np.round(x, 2)` becomes `round2`, rounding half to even at two decimals
  (numpy's rounding rule), over `ℚ` so that rounding is exact.
* random draws (`rng.integers`, `rng.random`) become explicit parameters:
  `kDraw` for the strike index drawn from `integers(2, 21)`, and rationals
  `uS`, `uCarry`, `uPrem` in `[0, 1)` for the three `rng.random()` calls.
* the curses event loop of `play_question` becomes a step function over an
  explicit state, consuming one keystroke code (an integer, as returned by
  `getch`) per iteration.
-/

/-- Round a rational to the nearest integer, ties to even — the rounding rule
used by `np.round`. -/
def rhe (x : ℚ) : ℤ :=
  let f := Int.floor x
  let r := x - f
  if r < 1/2 then f
  else if 1/2 < r then f + 1
  else if Even f then f else f + 1

/-- Model of `np.round(x, 2)`: round half to even at two decimal places. -/
def round2 (x : ℚ) : ℚ := (rhe (100 * x) : ℚ) / 100

/-- A rational is a two-decimal value when it is an integer number of
hundredths. -/
def TwoDec (x : ℚ) : Prop := ∃ m : ℤ, x = (m : ℚ) / 100

/-- Result record of `generate_prices` (the dictionary with keys
`K`, `S`, `r/c`, `C`, `P`; the key `r/c` is the field `carry`). -/
structure PriceSet where
  K : ℚ
  S : ℚ
  carry : ℚ
  C : ℚ
  P : ℚ
deriving DecidableEq

/-- The underlying price before its rounding: `S = 20*rng.random() - 10 + K`
with `K = kDraw * 5` (source line 171). -/
def rawS (kDraw : ℤ) (uS : ℚ) : ℚ := 20 * uS - 10 + ((kDraw * 5 : ℤ) : ℚ)

/-- Embedding of `PutCallGame.generate_prices` (source lines 167-201).
`kDraw` is the value drawn by `rng.integers(2, 21)`; `uS`, `uCarry`, `uPrem`
are the three `rng.random()` draws, each in `[0, 1)`. -/
def generate_prices (kDraw : ℤ) (uS uCarry uPrem : ℚ) : PriceSet :=
  let K : ℚ := ((kDraw * 5 : ℤ) : ℚ)
  let S : ℚ := round2 (rawS kDraw uS)
  let carry : ℚ := round2 uCarry
  let option_premium : ℚ := round2 (10 * uPrem + 1/100)
  if K ≤ S + carry then
    let C := S - K + carry + option_premium
    let P := C - S + K - carry
    { K := K, S := S, carry := carry, C := round2 C, P := round2 P }
  else
    let P := K - S - carry + option_premium
    let C := P + S - K + carry
    { K := K, S := S, carry := carry, C := round2 C, P := round2 P }

lemma rhe_intCast (m : ℤ) : rhe (m : ℚ) = m := by
  unfold rhe
  simp

lemma rhe_bounds (x : ℚ) : Int.floor x ≤ rhe x ∧ rhe x ≤ Int.floor x + 1 := by
  unfold rhe
  dsimp only
  split_ifs <;> omega

lemma round2_int_div (m : ℤ) : round2 ((m : ℚ) / 100) = (m : ℚ) / 100 := by
  unfold round2
  have h : (100 : ℚ) * ((m : ℚ) / 100) = (m : ℚ) := by ring
  rw [h, rhe_intCast]

lemma twoDec_round2 (x : ℚ) : TwoDec (round2 x) := ⟨rhe (100 * x), rfl⟩

lemma TwoDec.round2_eq {x : ℚ} (h : TwoDec x) : round2 x = x := by
  obtain ⟨m, rfl⟩ := h
  exact round2_int_div m

lemma TwoDec.add {x y : ℚ} (hx : TwoDec x) (hy : TwoDec y) : TwoDec (x + y) := by
  obtain ⟨m, rfl⟩ := hx
  obtain ⟨n, rfl⟩ := hy
  exact ⟨m + n, by push_cast; ring⟩

lemma TwoDec.sub {x y : ℚ} (hx : TwoDec x) (hy : TwoDec y) : TwoDec (x - y) := by
  obtain ⟨m, rfl⟩ := hx
  obtain ⟨n, rfl⟩ := hy
  exact ⟨m - n, by push_cast; ring⟩

lemma TwoDec.intCast (m : ℤ) : TwoDec ((m : ℚ)) :=
  ⟨100 * m, by push_cast; ring⟩

/-- The premium floor `round2 (10*uPrem + 0.01)` is at least `0.01` whenever
the draw `uPrem` is nonnegative. -/
lemma premium_floor_lower {u : ℚ} (h0 : 0 ≤ u) :
    1/100 ≤ round2 (10 * u + 1/100) := by
  have hy : (100 : ℚ) * (10 * u + 1/100) = 1000 * u + 1 := by ring
  have hlo : (1 : ℤ) ≤ Int.floor ((1000 : ℚ) * u + 1) := by
    rw [Int.le_floor]
    push_cast
    nlinarith
  have hb := rhe_bounds ((1000 : ℚ) * u + 1)
  have hm1 : (1 : ℤ) ≤ rhe ((1000 : ℚ) * u + 1) := le_trans hlo hb.1
  have hq1 : (1 : ℚ) ≤ (rhe ((1000 : ℚ) * u + 1) : ℚ) := by exact_mod_cast hm1
  unfold round2
  rw [hy]
  linarith

/-- The premium floor `round2 (10*uPrem + 0.01)` is at most `10.01` whenever
the draw `uPrem` is below 1. -/
lemma premium_floor_upper {u : ℚ} (h1 : u < 1) :
    round2 (10 * u + 1/100) ≤ 1001/100 := by
  have hy : (100 : ℚ) * (10 * u + 1/100) = 1000 * u + 1 := by ring
  have hhi : Int.floor ((1000 : ℚ) * u + 1) ≤ 1000 := by
    have h : Int.floor ((1000 : ℚ) * u + 1) < 1001 := by
      rw [Int.floor_lt]
      push_cast
      nlinarith
    omega
  have hb := rhe_bounds ((1000 : ℚ) * u + 1)
  have hm2 : rhe ((1000 : ℚ) * u + 1) ≤ 1001 := le_trans hb.2 (by omega)
  have hq2 : ((rhe ((1000 : ℚ) * u + 1) : ℚ)) ≤ 1001 := by exact_mod_cast hm2
  unfold round2
  rw [hy]
  linarith

/-- Case analysis of `generate_prices`: the returned fields, in each branch of
the moneyness test `S + carry >= K` (source lines 178-186), after the final
rounding of `C` and `P` has been discharged (it is the identity, because both
are two-decimal values already). -/
lemma generate_prices_cases (kDraw : ℤ) (uS uCarry uPrem : ℚ) :
    (generate_prices kDraw uS uCarry uPrem).K = ((kDraw * 5 : ℤ) : ℚ) ∧
    (generate_prices kDraw uS uCarry uPrem).S = round2 (rawS kDraw uS) ∧
    (generate_prices kDraw uS uCarry uPrem).carry = round2 uCarry ∧
    ((((kDraw * 5 : ℤ) : ℚ) ≤ round2 (rawS kDraw uS) + round2 uCarry ∧
      (generate_prices kDraw uS uCarry uPrem).C =
        round2 (rawS kDraw uS) - ((kDraw * 5 : ℤ) : ℚ) + round2 uCarry +
          round2 (10 * uPrem + 1/100) ∧
      (generate_prices kDraw uS uCarry uPrem).P = round2 (10 * uPrem + 1/100)) ∨
     (¬ (((kDraw * 5 : ℤ) : ℚ) ≤ round2 (rawS kDraw uS) + round2 uCarry) ∧
      (generate_prices kDraw uS uCarry uPrem).P =
        ((kDraw * 5 : ℤ) : ℚ) - round2 (rawS kDraw uS) - round2 uCarry +
          round2 (10 * uPrem + 1/100) ∧
      (generate_prices kDraw uS uCarry uPrem).C = round2 (10 * uPrem + 1/100))) := by
  have hS : TwoDec (round2 (rawS kDraw uS)) := twoDec_round2 _
  have hc : TwoDec (round2 uCarry) := twoDec_round2 _
  have hf : TwoDec (round2 (10 * uPrem + 1/100)) := twoDec_round2 _
  have hK : TwoDec ((((kDraw * 5 : ℤ) : ℚ))) := TwoDec.intCast _
  unfold generate_prices
  dsimp only
  split_ifs with h
  · refine ⟨rfl, rfl, rfl, Or.inl ⟨h, ?_, ?_⟩⟩
    · exact TwoDec.round2_eq (((hS.sub hK).add hc).add hf)
    · have he : round2 (rawS kDraw uS) - ((kDraw * 5 : ℤ) : ℚ) + round2 uCarry +
          round2 (10 * uPrem + 1/100) - round2 (rawS kDraw uS) + ((kDraw * 5 : ℤ) : ℚ) -
          round2 uCarry = round2 (10 * uPrem + 1/100) := by ring
      rw [he]
      exact TwoDec.round2_eq hf
  · refine ⟨rfl, rfl, rfl, Or.inr ⟨h, ?_, ?_⟩⟩
    · exact TwoDec.round2_eq (((hK.sub hS).sub hc).add hf)
    · have he : ((kDraw * 5 : ℤ) : ℚ) - round2 (rawS kDraw uS) - round2 uCarry +
          round2 (10 * uPrem + 1/100) + round2 (rawS kDraw uS) - ((kDraw * 5 : ℤ) : ℚ) +
          round2 uCarry = round2 (10 * uPrem + 1/100) := by ring
      rw [he]
      exact TwoDec.round2_eq hf

/-- Put-call parity holds exactly for every generated price set. -/
lemma generate_prices_parity (kDraw : ℤ) (uS uCarry uPrem : ℚ) :
    (generate_prices kDraw uS uCarry uPrem).C - (generate_prices kDraw uS uCarry uPrem).P =
      (generate_prices kDraw uS uCarry uPrem).S - (generate_prices kDraw uS uCarry uPrem).K +
        (generate_prices kDraw uS uCarry uPrem).carry := by
  obtain ⟨hK, hS, hc, hbr⟩ := generate_prices_cases kDraw uS uCarry uPrem
  rcases hbr with ⟨h, hC, hP⟩ | ⟨h, hP, hC⟩ <;> rw [hK, hS, hc, hC, hP] <;> ring

/-- Every field of a generated price set is a two-decimal value. -/
lemma generate_prices_twoDec (kDraw : ℤ) (uS uCarry uPrem : ℚ) :
    TwoDec (generate_prices kDraw uS uCarry uPrem).K ∧
    TwoDec (generate_prices kDraw uS uCarry uPrem).S ∧
    TwoDec (generate_prices kDraw uS uCarry uPrem).carry ∧
    TwoDec (generate_prices kDraw uS uCarry uPrem).C ∧
    TwoDec (generate_prices kDraw uS uCarry uPrem).P := by
  obtain ⟨hK, hS, hc, hbr⟩ := generate_prices_cases kDraw uS uCarry uPrem
  refine ⟨hK ▸ TwoDec.intCast _, hS ▸ twoDec_round2 _, hc ▸ twoDec_round2 _, ?_, ?_⟩
  · rcases hbr with ⟨h, hC, hP⟩ | ⟨h, hP, hC⟩
    · exact hC ▸ (((twoDec_round2 _).sub (TwoDec.intCast _)).add (twoDec_round2 _)).add
        (twoDec_round2 _)
    · exact hC ▸ twoDec_round2 _
  · rcases hbr with ⟨h, hC, hP⟩ | ⟨h, hP, hC⟩
    · exact hP ▸ twoDec_round2 _
    · exact hP ▸ (((TwoDec.intCast _).sub (twoDec_round2 _)).sub (twoDec_round2 _)).add
        (twoDec_round2 _)

/-- C1: for every price set returned by `generate_prices` (for any draws of
K, S, carry, and premium_floor), the put-call parity invariant holds within
the rounding tolerance: `abs((C - P) - (S - K + carry)) < 1e-4`, where `C`
and `P` are the rounded values stored in the returned dictionary. -/
theorem generate_prices_parity_tolerance (kDraw : ℤ) (uS uCarry uPrem : ℚ) :
    |((generate_prices kDraw uS uCarry uPrem).C -
        (generate_prices kDraw uS uCarry uPrem).P) -
      ((generate_prices kDraw uS uCarry uPrem).S -
        (generate_prices kDraw uS uCarry uPrem).K +
        (generate_prices kDraw uS uCarry uPrem).carry)| < 1/10000 := by
  rw [generate_prices_parity kDraw uS uCarry uPrem]
  simp only [sub_self, abs_zero]
  norm_num

/-- C2: for every price set returned by `generate_prices`, both premiums are
strictly positive, `C > 0` and `P > 0`, by construction (the moneyness branch
plus the strictly positive premium floor), with no rejection sampling. -/
theorem generate_prices_positive (kDraw : ℤ) (uS uCarry uPrem : ℚ)
    (hPrem : 0 ≤ uPrem) :
    0 < (generate_prices kDraw uS uCarry uPrem).C ∧
    0 < (generate_prices kDraw uS uCarry uPrem).P := by
  have hf := premium_floor_lower hPrem
  obtain ⟨hK, hS, hc, hbr⟩ := generate_prices_cases kDraw uS uCarry uPrem
  rcases hbr with ⟨h, hC, hP⟩ | ⟨h, hP, hC⟩
  · constructor
    · rw [hC]; linarith
    · rw [hP]; linarith
  · rw [not_le] at h
    constructor
    · rw [hC]; linarith
    · rw [hP]; linarith

/-- Witness for C2 at the concrete draws `kDraw = 2`, `uS = uCarry = uPrem = 0`. -/
theorem generate_prices_positive_witness :
    0 < (generate_prices 2 0 0 0).C ∧ 0 < (generate_prices 2 0 0 0).P :=
  generate_prices_positive 2 0 0 0 (le_refl 0)

/-- C10: the out-of-the-money-side premium equals the sampled premium floor
exactly: when `S + carry >= K` the returned `P` equals the premium floor, and
otherwise the returned `C` does; consequently `min C P` is a two-decimal value
in `[0.01, 10.01]`, and the final rounding of `C` and `P` does not alter the
parity relation at all in exact arithmetic. -/
theorem generate_prices_floor_side (kDraw : ℤ) (uS uCarry uPrem : ℚ)
    (h0 : 0 ≤ uPrem) (h1 : uPrem < 1) :
    ((generate_prices kDraw uS uCarry uPrem).K ≤
        (generate_prices kDraw uS uCarry uPrem).S +
          (generate_prices kDraw uS uCarry uPrem).carry →
      (generate_prices kDraw uS uCarry uPrem).P = round2 (10 * uPrem + 1/100)) ∧
    ((generate_prices kDraw uS uCarry uPrem).S +
        (generate_prices kDraw uS uCarry uPrem).carry <
          (generate_prices kDraw uS uCarry uPrem).K →
      (generate_prices kDraw uS uCarry uPrem).C = round2 (10 * uPrem + 1/100)) ∧
    1/100 ≤ min (generate_prices kDraw uS uCarry uPrem).C
        (generate_prices kDraw uS uCarry uPrem).P ∧
    min (generate_prices kDraw uS uCarry uPrem).C
        (generate_prices kDraw uS uCarry uPrem).P ≤ 1001/100 ∧
    TwoDec (min (generate_prices kDraw uS uCarry uPrem).C
        (generate_prices kDraw uS uCarry uPrem).P) ∧
    (generate_prices kDraw uS uCarry uPrem).C -
        (generate_prices kDraw uS uCarry uPrem).P =
      (generate_prices kDraw uS uCarry uPrem).S -
        (generate_prices kDraw uS uCarry uPrem).K +
        (generate_prices kDraw uS uCarry uPrem).carry := by
  have hlo := premium_floor_lower h0
  have hhi := premium_floor_upper h1
  obtain ⟨hK, hS, hc, hbr⟩ := generate_prices_cases kDraw uS uCarry uPrem
  have hparity := generate_prices_parity kDraw uS uCarry uPrem
  rcases hbr with ⟨h, hC, hP⟩ | ⟨h, hP, hC⟩
  · have hmin : min (generate_prices kDraw uS uCarry uPrem).C
        (generate_prices kDraw uS uCarry uPrem).P =
          round2 (10 * uPrem + 1/100) := by
      rw [hC, hP]
      exact min_eq_right (by linarith)
    refine ⟨fun _ => hP, fun hlt => ?_, ?_, ?_, ?_, hparity⟩
    · exfalso
      rw [hK, hS, hc] at hlt
      exact absurd h (not_le.mpr hlt)
    · rw [hmin]; exact hlo
    · rw [hmin]; exact hhi
    · rw [hmin]; exact twoDec_round2 _
  · have hgt := not_le.mp h
    have hmin : min (generate_prices kDraw uS uCarry uPrem).C
        (generate_prices kDraw uS uCarry uPrem).P =
          round2 (10 * uPrem + 1/100) := by
      rw [hC, hP]
      exact min_eq_left (by linarith)
    refine ⟨fun hge => ?_, fun _ => hC, ?_, ?_, ?_, hparity⟩
    · exfalso
      rw [hK, hS, hc] at hge
      exact absurd hge h
    · rw [hmin]; exact hlo
    · rw [hmin]; exact hhi
    · rw [hmin]; exact twoDec_round2 _

/-- Witness for C10 at the concrete draws `kDraw = 2`, `uS = uCarry = uPrem = 0`. -/
theorem generate_prices_floor_side_witness :
    ((generate_prices 2 0 0 0).K ≤ (generate_prices 2 0 0 0).S +
        (generate_prices 2 0 0 0).carry →
      (generate_prices 2 0 0 0).P = round2 (10 * 0 + 1/100)) ∧
    ((generate_prices 2 0 0 0).S + (generate_prices 2 0 0 0).carry <
        (generate_prices 2 0 0 0).K →
      (generate_prices 2 0 0 0).C = round2 (10 * 0 + 1/100)) ∧
    1/100 ≤ min (generate_prices 2 0 0 0).C (generate_prices 2 0 0 0).P ∧
    min (generate_prices 2 0 0 0).C (generate_prices 2 0 0 0).P ≤ 1001/100 ∧
    TwoDec (min (generate_prices 2 0 0 0).C (generate_prices 2 0 0 0).P) ∧
    (generate_prices 2 0 0 0).C - (generate_prices 2 0 0 0).P =
      (generate_prices 2 0 0 0).S - (generate_prices 2 0 0 0).K +
        (generate_prices 2 0 0 0).carry :=
  generate_prices_floor_side 2 0 0 0 (le_refl 0) (by norm_num)

/-- The set named by claim C8: the multiples of 5 in the interval [10, 100],
written out from the claim text so it can be compared with the code. -/
def KClaimSet : Finset ℤ := (Finset.Icc (10 : ℤ) 100).filter (fun n => (5 : ℤ) ∣ n)

/-- Counterexample to C8 as stated: the set of multiples of 5 in [10, 100]
has 19 elements, not 20. -/
theorem KClaimSet_card_not_twenty : ¬ (KClaimSet.card = 20) := by decide

/-- C8 amended: `K` is one of the 19 (not 20) multiples of 5 in [10, 100],
and the underlying price before its final rounding lies within
`[K - 10, K + 10]`. -/
theorem generate_prices_K_range (kDraw : ℤ) (uS uCarry uPrem : ℚ)
    (h2 : 2 ≤ kDraw) (h20 : kDraw ≤ 20) (hu0 : 0 ≤ uS) (hu1 : uS < 1) :
    kDraw * 5 ∈ KClaimSet ∧ KClaimSet.card = 19 ∧
    (generate_prices kDraw uS uCarry uPrem).K = ((kDraw * 5 : ℤ) : ℚ) ∧
    (generate_prices kDraw uS uCarry uPrem).K - 10 ≤ rawS kDraw uS ∧
    rawS kDraw uS ≤ (generate_prices kDraw uS uCarry uPrem).K + 10 := by
  obtain ⟨hK, hS, hc, hbr⟩ := generate_prices_cases kDraw uS uCarry uPrem
  refine ⟨?_, by decide, hK, ?_, ?_⟩
  · simp only [KClaimSet, Finset.mem_filter, Finset.mem_Icc]
    exact ⟨⟨by omega, by omega⟩, ⟨kDraw, by ring⟩⟩
  · rw [hK]
    unfold rawS
    have : (0 : ℚ) ≤ 20 * uS := by linarith
    linarith
  · rw [hK]
    unfold rawS
    have : 20 * uS ≤ 20 := by linarith
    linarith

/-- Witness for the amended C8 at the concrete draws `kDraw = 2`,
`uS = uCarry = uPrem = 0`. -/
theorem generate_prices_K_range_witness :
    (2 : ℤ) * 5 ∈ KClaimSet ∧ KClaimSet.card = 19 ∧
    (generate_prices 2 0 0 0).K = (((2 : ℤ) * 5 : ℤ) : ℚ) ∧
    (generate_prices 2 0 0 0).K - 10 ≤ rawS 2 0 ∧
    rawS 2 0 ≤ (generate_prices 2 0 0 0).K + 10 :=
  generate_prices_K_range 2 0 0 0 (by norm_num) (by norm_num) (le_refl 0)
    (by norm_num)

/-- The five question modes, named as the strings appended to
`self.allowed_modes` in `PutCallGame.__init__` (source lines 59-73). -/
inductive Mode where
  | ONE
  | TWO
  | THREE
  | FOUR
  | FIVE
deriving DecidableEq

/-- Decoding of the `modes_allowed` bitmask into the `allowed_modes` list
(source lines 59-73); the argument is the bitmask as a natural number
(`__init__` rejects values outside [1, 31] before this list is built). -/
def allowedModes (n : ℕ) : List Mode :=
  (if n &&& 1 ≠ 0 then [Mode.ONE] else []) ++
  (if n &&& 2 ≠ 0 then [Mode.TWO] else []) ++
  (if n &&& 4 ≠ 0 then [Mode.THREE] else []) ++
  (if n &&& 8 ≠ 0 then [Mode.FOUR] else []) ++
  (if n &&& 16 ≠ 0 then [Mode.FIVE] else [])

/-- State of a `PutCallGame` object. `timer` models the single cell
`self.timer[0]`; `sigalrm_attached` records whether the SIGALRM handler is
installed and the interval timer armed (true between `play` and `reset`). -/
structure Game where
  allowed_modes : List Mode
  score : ℤ
  starting_time : ℤ
  timer : ℤ
  is_playing : Bool
  sigalrm_attached : Bool
deriving DecidableEq

/-- Embedding of `PutCallGame.__init__` (source lines 32-82): validation of
`modes_allowed` and `time_length`, then construction of the initial object
state. Python `int` arguments are modelled as `ℤ`. -/
def pcg_init (modes_allowed time_length : ℤ) : Except String Game :=
  if modes_allowed < 1 ∨ 31 < modes_allowed then
    Except.error "Invald modes_allowed"
  else if time_length ≤ 0 then
    Except.error "invalid time_length"
  else
    Except.ok
      { allowed_modes := allowedModes modes_allowed.toNat
        score := -1
        starting_time := time_length
        timer := -1
        is_playing := false
        sigalrm_attached := false }

/-- Embedding of `PutCallGame.alarm_handler` (source lines 84-88) acting on
the timer cell: decrement when the current value is at least 0. -/
def alarm_handler (t : ℤ) : ℤ := if 0 ≤ t then t - 1 else t

/-- Delivery of one periodic SIGALRM to the game object: the handler runs
only while it is installed (between `play` and `reset`). -/
def alarm_event (g : Game) : Game :=
  if g.sigalrm_attached then { g with timer := alarm_handler g.timer } else g

/-- Embedding of `PutCallGame.reset` (source lines 90-102): clear the timer
cell and the score to the -1 sentinel, stop the interval timer, restore the
default SIGALRM handler, and clear the active flag. -/
def reset (g : Game) : Game :=
  { g with timer := -1, score := -1, sigalrm_attached := false, is_playing := false }

/-- Start-of-session initialisation done by `PutCallGame.play`
(source lines 113-122): zero the score, load the timer cell with the
configured duration, set the active flag, install the handler and arm the
interval timer. -/
def play_start (g : Game) : Game :=
  { g with score := 0, timer := g.starting_time, is_playing := true,
           sigalrm_attached := true }

/-- C6: each tick decrements the timer cell by 1 exactly when its current
value is at least 0; consequently, from a start value `T ≥ 0`, after `N`
ticks the cell holds `T - N` for every `N ≤ T`, and for every `N > T` it
holds the sentinel value -1, no matter how many further ticks occur. -/
theorem alarm_handler_countdown (t : ℤ) (T N : ℕ) :
    (0 ≤ t → alarm_handler t = t - 1) ∧
    (t < 0 → alarm_handler t = t) ∧
    (N ≤ T → alarm_handler^[N] (T : ℤ) = (T : ℤ) - (N : ℤ)) ∧
    (T < N → alarm_handler^[N] (T : ℤ) = -1) := by
  have hstep₁ : ∀ s : ℤ, 0 ≤ s → alarm_handler s = s - 1 := by
    intro s hs
    unfold alarm_handler
    rw [if_pos hs]
  have hstep₂ : ∀ s : ℤ, s < 0 → alarm_handler s = s := by
    intro s hs
    unfold alarm_handler
    rw [if_neg (not_le.mpr hs)]
  have hle : ∀ (n m : ℕ), n ≤ m → alarm_handler^[n] (m : ℤ) = (m : ℤ) - (n : ℤ) := by
    intro n
    induction n with
    | zero => intro m _; simp
    | succ k ih =>
      intro m hkm
      have hm1 : 1 ≤ m := by omega
      rw [Function.iterate_succ_apply, hstep₁ (m : ℤ) (by exact_mod_cast Nat.zero_le m)]
      have hcast : ((m : ℤ)) - 1 = ((m - 1 : ℕ) : ℤ) := by omega
      rw [hcast, ih (m - 1) (by omega)]
      omega
  have hneg : ∀ j : ℕ, alarm_handler^[j] ((-1 : ℤ)) = -1 := by
    intro j
    induction j with
    | zero => simp
    | succ i ih =>
      rw [Function.iterate_succ_apply,
        show alarm_handler (-1 : ℤ) = -1 by unfold alarm_handler; norm_num, ih]
  refine ⟨hstep₁ t, hstep₂ t, hle N T, ?_⟩
  intro hTN
  obtain ⟨k, hk⟩ : ∃ k : ℕ, N = (T + 1) + k := ⟨N - (T + 1), by omega⟩
  subst hk
  rw [Nat.add_comm (T + 1) k, Function.iterate_add_apply]
  have hT : alarm_handler^[T + 1] (T : ℤ) = -1 := by
    rw [Function.iterate_succ_apply']
    rw [hle T T (le_refl T)]
    simp [alarm_handler]
  rw [hT]
  exact hneg k

/-- Witness for C6 at `T = 3`: after 2 ticks the cell holds 1, after 5 ticks
it holds -1, a tick at 7 yields 6 and a tick at -1 leaves -1. -/
theorem alarm_handler_countdown_witness :
    (alarm_handler 7 = 7 - 1) ∧ (alarm_handler (-1) = -1) ∧
    (alarm_handler^[2] ((3 : ℕ) : ℤ) = ((3 : ℕ) : ℤ) - ((2 : ℕ) : ℤ)) ∧
    (alarm_handler^[5] ((3 : ℕ) : ℤ) = -1) :=
  ⟨(alarm_handler_countdown 7 3 2).1 (by norm_num),
   (alarm_handler_countdown (-1) 3 2).2.1 (by norm_num),
   (alarm_handler_countdown 0 3 2).2.2.1 (by norm_num),
   (alarm_handler_countdown 0 3 5).2.2.2 (by norm_num)⟩

/-- Counterexample to C7 as stated: `reset` leaves the score at the -1
sentinel, not at 0 (source line 95 assigns `self.score = -1`). -/
theorem reset_score_counterexample :
    (reset { allowed_modes := [Mode.ONE], score := 5, starting_time := 60,
             timer := 3, is_playing := true, sigalrm_attached := true }).score ≠ 0 := by
  decide

/-- C7 amended: after a session ends and the player acknowledges, `reset`
restores the state for reuse with the score at the -1 uninitialized sentinel
(the same value `__init__` gives it, not 0), the timer cell at the -1
sentinel, the active flag false, and the periodic tick fully detached, so
subsequent ticks before the next start have no observable effect. -/
theorem reset_amended (g : Game) (n : ℕ) :
    (reset g).score = -1 ∧
    (reset g).timer = -1 ∧
    (reset g).is_playing = false ∧
    (reset g).sigalrm_attached = false ∧
    alarm_event^[n] (reset g) = reset g := by
  refine ⟨rfl, rfl, rfl, rfl, ?_⟩
  induction n with
  | zero => rfl
  | succ k ih =>
    rw [Function.iterate_succ_apply, show alarm_event (reset g) = reset g from rfl, ih]

/-- C9: construction fails with a `ValueError` exactly when the mode bitmask
is not a nonempty valid 5-bit subset (i.e. lies outside [1, 31]) or the
session duration is not positive; on success the stored configuration is the
decoded, nonempty mode list and the given duration — nothing is silently
substituted — and the uninitialized sentinels are in place. -/
theorem pcg_init_validation (modes_allowed time_length : ℤ) :
    ((pcg_init modes_allowed time_length).isOk = true ↔
      (1 ≤ modes_allowed ∧ modes_allowed ≤ 31 ∧ 1 ≤ time_length)) ∧
    (∀ g : Game, pcg_init modes_allowed time_length = Except.ok g →
      g.allowed_modes = allowedModes modes_allowed.toNat ∧
      g.allowed_modes ≠ [] ∧
      g.starting_time = time_length ∧
      g.score = -1 ∧ g.timer = -1 ∧ g.is_playing = false ∧
      g.sigalrm_attached = false) := by
  have hnonempty : ∀ n : ℕ, n < 32 → 1 ≤ n → allowedModes n ≠ [] := by decide
  constructor
  · constructor
    · intro h
      unfold pcg_init at h
      split_ifs at h with h1 h2
      · exact absurd h (by simp [Except.isOk, Except.toBool])
      · exact absurd h (by simp [Except.isOk, Except.toBool])
      · omega
    · intro h
      unfold pcg_init
      rw [if_neg (by omega), if_neg (by omega)]
      rfl
  · intro g hg
    unfold pcg_init at hg
    split_ifs at hg with h1 h2
    rw [Except.ok.injEq] at hg
    subst hg
    exact ⟨rfl, hnonempty modes_allowed.toNat (by omega) (by omega),
      rfl, rfl, rfl, rfl, rfl⟩

/-- Witness for C9 at the concrete configuration `modes_allowed = 31`,
`time_length = 60`. -/
theorem pcg_init_validation_witness :
    (pcg_init 31 60).isOk = true :=
  (pcg_init_validation 31 60).1.mpr (by norm_num)

/-- Embedding of `PutCallGame.generate_problem` (source lines 205-276),
derandomised: `prices` is the result of `generate_prices`, `mode` the value
drawn by `rng.choice(self.allowed_modes)`, and `coin` the outcome of the
`rng.random() > 0.5` draw selecting which premium to hide (true hides C).
The display string is modelled structurally: each line `label = value`
becomes a pair, with `none` standing for the `?` placeholder; the second
component is the expected answer. -/
def generate_problem (prices : PriceSet) (mode : Mode) (coin : Bool) :
    (List (String × Option ℚ)) × ℚ :=
  match mode with
  | Mode.ONE =>
    if coin then
      ([("C", none), ("P", some prices.P), ("S", some prices.S),
        ("K", some prices.K), ("r/c", some prices.carry)], prices.C)
    else
      ([("C", some prices.C), ("P", none), ("S", some prices.S),
        ("K", some prices.K), ("r/c", some prices.carry)], prices.P)
  | Mode.TWO =>
    let combo := round2 (prices.S - prices.K + prices.carry)
    ([("Combo", some combo), ("S", none), ("K", some prices.K),
      ("r/c", some prices.carry)], prices.S)
  | Mode.THREE =>
    let straddle := round2 (prices.C + prices.P)
    if coin then
      ([("C", none), ("Straddle", some straddle), ("S", some prices.S),
        ("K", some prices.K), ("r/c", some prices.carry)], prices.C)
    else
      ([("P", none), ("Straddle", some straddle), ("S", some prices.S),
        ("K", some prices.K), ("r/c", some prices.carry)], prices.P)
  | Mode.FOUR =>
    let b_w := round2 (prices.C + prices.K - prices.S)
    if coin then
      ([("C", none), ("B/W", some b_w), ("S", some prices.S),
        ("K", some prices.K), ("r/c", some prices.carry)], prices.C)
    else
      ([("P", none), ("B/W", some b_w), ("S", some prices.S),
        ("K", some prices.K), ("r/c", some prices.carry)], prices.P)
  | Mode.FIVE =>
    let p_s := round2 (prices.P + prices.S - prices.K)
    if coin then
      ([("C", none), ("P&S", some p_s), ("S", some prices.S),
        ("K", some prices.K), ("r/c", some prices.carry)], prices.C)
    else
      ([("P", none), ("P&S", some p_s), ("S", some prices.S),
        ("K", some prices.K), ("r/c", some prices.carry)], prices.P)

/-- C3: for every generated price set and every mode and coin selection, the
problem built by `generate_problem` is consistent: the expected answer,
combined with the visible fields and the parity relation, reproduces the
displayed derived quantity (COMBO displays `round2 (S - K + carry)` and the
answer is S; STRADDLE displays `round2 (C + P)` and the answer is C or P;
BUY_WRITE displays `round2 (C + K - S)`; PUT_SUMMARY displays
`round2 (P + S - K)`; BASIC_PARITY answers with the hidden premium, which the
four shown fields determine via parity). -/
theorem generate_problem_consistent (kDraw : ℤ) (uS uCarry uPrem : ℚ)
    (ps : PriceSet) (hps : ps = generate_prices kDraw uS uCarry uPrem) :
    ((generate_problem ps Mode.ONE true).2 = ps.C ∧
     (generate_problem ps Mode.ONE true).1.lookup "C" = some none ∧
     (generate_problem ps Mode.ONE true).2 = ps.P + ps.S - ps.K + ps.carry) ∧
    ((generate_problem ps Mode.ONE false).2 = ps.P ∧
     (generate_problem ps Mode.ONE false).1.lookup "P" = some none ∧
     (generate_problem ps Mode.ONE false).2 = ps.C - ps.S + ps.K - ps.carry) ∧
    (∀ coin : Bool,
      (generate_problem ps Mode.TWO coin).2 = ps.S ∧
      (generate_problem ps Mode.TWO coin).1.lookup "Combo" =
        some (some (round2 (ps.S - ps.K + ps.carry))) ∧
      round2 (ps.S - ps.K + ps.carry) =
        (generate_problem ps Mode.TWO coin).2 - ps.K + ps.carry) ∧
    ((generate_problem ps Mode.THREE true).2 = ps.C ∧
     (generate_problem ps Mode.THREE true).1.lookup "Straddle" =
        some (some (round2 (ps.C + ps.P))) ∧
     round2 (ps.C + ps.P) =
        (generate_problem ps Mode.THREE true).2 +
          ((generate_problem ps Mode.THREE true).2 - (ps.S - ps.K + ps.carry))) ∧
    ((generate_problem ps Mode.THREE false).2 = ps.P ∧
     (generate_problem ps Mode.THREE false).1.lookup "Straddle" =
        some (some (round2 (ps.C + ps.P))) ∧
     round2 (ps.C + ps.P) =
        ((generate_problem ps Mode.THREE false).2 + (ps.S - ps.K + ps.carry)) +
          (generate_problem ps Mode.THREE false).2) ∧
    ((generate_problem ps Mode.FOUR true).2 = ps.C ∧
     (generate_problem ps Mode.FOUR true).1.lookup "B/W" =
        some (some (round2 (ps.C + ps.K - ps.S))) ∧
     round2 (ps.C + ps.K - ps.S) =
        (generate_problem ps Mode.FOUR true).2 + ps.K - ps.S) ∧
    ((generate_problem ps Mode.FOUR false).2 = ps.P ∧
     (generate_problem ps Mode.FOUR false).1.lookup "B/W" =
        some (some (round2 (ps.C + ps.K - ps.S))) ∧
     round2 (ps.C + ps.K - ps.S) =
        (generate_problem ps Mode.FOUR false).2 + ps.carry) ∧
    ((generate_problem ps Mode.FIVE true).2 = ps.C ∧
     (generate_problem ps Mode.FIVE true).1.lookup "P&S" =
        some (some (round2 (ps.P + ps.S - ps.K))) ∧
     round2 (ps.P + ps.S - ps.K) =
        (generate_problem ps Mode.FIVE true).2 - ps.carry) ∧
    ((generate_problem ps Mode.FIVE false).2 = ps.P ∧
     (generate_problem ps Mode.FIVE false).1.lookup "P&S" =
        some (some (round2 (ps.P + ps.S - ps.K))) ∧
     round2 (ps.P + ps.S - ps.K) =
        (generate_problem ps Mode.FIVE false).2 + ps.S - ps.K) := by
  subst hps
  obtain ⟨hKt, hSt, hct, hCt, hPt⟩ := generate_prices_twoDec kDraw uS uCarry uPrem
  have hpar := generate_prices_parity kDraw uS uCarry uPrem
  set ps := generate_prices kDraw uS uCarry uPrem
  have hstr : round2 (ps.C + ps.P) = ps.C + ps.P := (hCt.add hPt).round2_eq
  have hcombo : round2 (ps.S - ps.K + ps.carry) = ps.S - ps.K + ps.carry :=
    ((hSt.sub hKt).add hct).round2_eq
  have hbw : round2 (ps.C + ps.K - ps.S) = ps.C + ps.K - ps.S :=
    ((hCt.add hKt).sub hSt).round2_eq
  have hfive : round2 (ps.P + ps.S - ps.K) = ps.P + ps.S - ps.K :=
    ((hPt.add hSt).sub hKt).round2_eq
  refine ⟨⟨rfl, rfl, ?_⟩, ⟨rfl, rfl, ?_⟩, ?_, ⟨rfl, rfl, ?_⟩, ⟨rfl, rfl, ?_⟩,
    ⟨rfl, rfl, ?_⟩, ⟨rfl, rfl, ?_⟩, ⟨rfl, rfl, ?_⟩, ⟨rfl, rfl, ?_⟩⟩
  · show ps.C = ps.P + ps.S - ps.K + ps.carry
    linarith
  · show ps.P = ps.C - ps.S + ps.K - ps.carry
    linarith
  · intro coin
    refine ⟨rfl, rfl, ?_⟩
    show round2 (ps.S - ps.K + ps.carry) = ps.S - ps.K + ps.carry
    exact hcombo
  · show round2 (ps.C + ps.P) = ps.C + (ps.C - (ps.S - ps.K + ps.carry))
    rw [hstr]
    linarith
  · show round2 (ps.C + ps.P) = (ps.P + (ps.S - ps.K + ps.carry)) + ps.P
    rw [hstr]
    linarith
  · show round2 (ps.C + ps.K - ps.S) = ps.C + ps.K - ps.S
    exact hbw
  · show round2 (ps.C + ps.K - ps.S) = ps.P + ps.carry
    rw [hbw]
    linarith
  · show round2 (ps.P + ps.S - ps.K) = ps.C - ps.carry
    rw [hfive]
    linarith
  · show round2 (ps.P + ps.S - ps.K) = ps.P + ps.S - ps.K
    exact hfive

/-- Witness for C3 at the concrete draws `kDraw = 2`, `uS = uCarry = uPrem = 0`:
a COMBO answer is the underlying price, and a BASIC_PARITY answer hiding C is
determined by parity from the shown fields. -/
theorem generate_problem_consistent_witness :
    (generate_problem (generate_prices 2 0 0 0) Mode.TWO true).2 =
      (generate_prices 2 0 0 0).S ∧
    (generate_problem (generate_prices 2 0 0 0) Mode.ONE true).2 =
      (generate_prices 2 0 0 0).P + (generate_prices 2 0 0 0).S -
        (generate_prices 2 0 0 0).K + (generate_prices 2 0 0 0).carry :=
  ⟨((generate_problem_consistent 2 0 0 0 (generate_prices 2 0 0 0) rfl).2.2.1
      true).1,
   (generate_problem_consistent 2 0 0 0 (generate_prices 2 0 0 0) rfl).1.2.2⟩

/-- The curses constant `curses.KEY_BACKSPACE` (octal 0o407). -/
def KEY_BACKSPACE : ℤ := 263

/-- Model of Python `chr(ch).isprintable()` for code points `0 < ch < 256`:
the printable ASCII range plus Latin-1 letters and symbols, excluding the
control ranges, NBSP (160) and the soft hyphen (173). -/
def pyIsPrintable (n : ℤ) : Prop :=
  (32 ≤ n ∧ n ≤ 126) ∨ (161 ≤ n ∧ n ≤ 255 ∧ n ≠ 173)

instance (n : ℤ) : Decidable (pyIsPrintable n) := by
  unfold pyIsPrintable
  infer_instance

/-- State visible to one run of `play_question`: the answer buffer and cursor
(locals `user_input` and `cursor_pos`), plus the object fields `score`,
`timer[0]` and `is_playing` that the loop reads and writes. -/
structure QState where
  user_input : String
  cursor_pos : ℕ
  score : ℤ
  timer : ℤ
  is_playing : Bool
deriving DecidableEq

/-- The timeout check at the top of each `play_question` iteration
(source lines 312-313): when the timer cell is at or below 0, clear the
active flag. Note the source then falls through to `getch` regardless. -/
def applyTimer (st : QState) : QState :=
  if st.timer ≤ 0 then { st with is_playing := false } else st

/-- Keystroke handling of `play_question` (source lines 315-323): backspace
removes the character before the cursor (no-op on an empty prefix), a
printable character with code below 256 is inserted at the cursor, and any
other event is ignored. -/
def applyEdit (st : QState) (ch : ℤ) : QState :=
  if ch = KEY_BACKSPACE ∨ ch = 127 then
    if 0 < st.cursor_pos then
      { st with
        user_input := st.user_input.take (st.cursor_pos - 1) ++
          st.user_input.drop st.cursor_pos,
        cursor_pos := st.cursor_pos - 1 }
    else st
  else if 0 < ch ∧ ch < 256 ∧ pyIsPrintable ch then
    { st with
      user_input := st.user_input.take st.cursor_pos ++
        String.singleton (Char.ofNat ch.toNat) ++ st.user_input.drop st.cursor_pos,
      cursor_pos := st.cursor_pos + 1 }
  else st

/-- One iteration of the `while` loop in `play_question` (source lines
294-332), given the keystroke `ch` read by `getch`: timeout check, buffer
edit, then the verbatim string comparison of the buffer against the target;
on a match the score is incremented and the flag `true` signals the `return`
that ends the question. -/
def questionStep (target : String) (st : QState) (ch : ℤ) : QState × Bool :=
  let st2 := applyEdit (applyTimer st) ch
  if st2.user_input = target then ({ st2 with score := st2.score + 1 }, true)
  else (st2, false)

/-- The `while (self.is_playing)` loop of `play_question`, consuming one
keystroke per iteration from the event list (an empty list models a player
who types nothing more; the real `getch` would block). -/
def play_question_loop (target : String) : QState → List ℤ → QState
  | st, [] => st
  | st, ch :: rest =>
    if st.is_playing then
      match questionStep target st ch with
      | (stNew, true) => stNew
      | (stNew, false) => play_question_loop target stNew rest
    else st

/-- Model of `str(answer).strip()` for the nonnegative two-decimal rational
answers this game produces: the shortest decimal form of the float, i.e. the
hundredths written with trailing zero trimmed but at least one fractional
digit (`3` gives "3.0", `83/10` gives "8.3", `161/20` gives "8.05"); `strip`
is the identity on such strings. -/
def twoDecStr (q : ℚ) : String :=
  let n : ℕ := ((q.num * 100) / (q.den : ℤ)).toNat
  let ip : ℕ := n / 100
  let fr : ℕ := n % 100
  toString ip ++ "." ++
    (if fr % 10 = 0 then toString (fr / 10)
     else if fr < 10 then "0" ++ toString fr
     else toString fr)

/-- Embedding of `PutCallGame.play_question` (source lines 278-332) for a
fixed expected answer: initialise the empty buffer and cursor, then run the
input loop against the canonical string form of the answer. -/
def play_question (answer : ℚ) (st : QState) (evs : List ℤ) : QState :=
  play_question_loop (twoDecStr answer)
    { st with user_input := "", cursor_pos := 0 } evs

lemma applyTimer_fields (st : QState) :
    (applyTimer st).user_input = st.user_input ∧
    (applyTimer st).cursor_pos = st.cursor_pos ∧
    (applyTimer st).score = st.score ∧
    (applyTimer st).timer = st.timer := by
  unfold applyTimer
  split_ifs <;> exact ⟨rfl, rfl, rfl, rfl⟩

lemma applyEdit_fields (st : QState) (ch : ℤ) :
    (applyEdit st ch).score = st.score ∧
    (applyEdit st ch).timer = st.timer ∧
    (applyEdit st ch).is_playing = st.is_playing := by
  unfold applyEdit
  split_ifs <;> exact ⟨rfl, rfl, rfl⟩

/-- Dichotomy of one loop iteration: either the edited buffer equals the
target, the score rises by exactly one and the step reports the match, or
the buffer differs, the score is unchanged and no match is reported. -/
lemma questionStep_cases (target : String) (st : QState) (ch : ℤ) :
    ((questionStep target st ch).2 = true ∧
      (questionStep target st ch).1.score = st.score + 1 ∧
      (questionStep target st ch).1.user_input = target) ∨
    ((questionStep target st ch).2 = false ∧
      (questionStep target st ch).1.score = st.score ∧
      ¬ (questionStep target st ch).1.user_input = target) := by
  have hsc : (applyEdit (applyTimer st) ch).score = st.score := by
    rw [(applyEdit_fields (applyTimer st) ch).1, (applyTimer_fields st).2.2.1]
  unfold questionStep
  dsimp only
  split_ifs with h
  · exact Or.inl ⟨rfl, by dsimp only; rw [hsc], h⟩
  · exact Or.inr ⟨rfl, hsc, h⟩

lemma questionStep_is_playing (target : String) (st : QState) (ch : ℤ) :
    (questionStep target st ch).1.is_playing = (applyTimer st).is_playing := by
  unfold questionStep
  dsimp only
  split_ifs <;> exact (applyEdit_fields (applyTimer st) ch).2.2

/-- Over a whole question, the score rises by at most one: a match ends the
loop at once, and any non-matching iteration leaves the score unchanged. -/
lemma play_question_loop_score_le (target : String) :
    ∀ (evs : List ℤ) (st : QState),
      (play_question_loop target st evs).score ≤ st.score + 1 := by
  intro evs
  induction evs with
  | nil =>
    intro st
    show st.score ≤ st.score + 1
    linarith
  | cons ch rest ih =>
    intro st
    show (if st.is_playing then
        match questionStep target st ch with
        | (stNew, true) => stNew
        | (stNew, false) => play_question_loop target stNew rest
      else st).score ≤ st.score + 1
    split_ifs with hp
    · have hc := questionStep_cases target st ch
      cases hq : questionStep target st ch with
      | mk stNew b =>
        rw [hq] at hc
        cases b
        · dsimp only
          rcases hc with ⟨hb, _, _⟩ | ⟨_, hs, _⟩
          · cases hb
          · calc (play_question_loop target stNew rest).score
                ≤ stNew.score + 1 := ih stNew
              _ = st.score + 1 := by rw [hs]
        · dsimp only
          rcases hc with ⟨_, hs, _⟩ | ⟨hb, _, _⟩
          · rw [hs]
          · cases hb
    · linarith

/-- C4: in the per-question loop, after each buffer edit the buffer is
compared verbatim, as text, against the canonical string form of the expected
answer; the question is scored exactly when the strings are equal (so
near-equal but differently formatted strings, such as the trailing-zero
variant "3.00" of the target "3.0", do not match), a match increments the
score by exactly 1 and ends the question, and over a whole question the score
never rises by more than 1. -/
theorem play_question_scoring (answer : ℚ) (st : QState) (ch : ℤ)
    (evs : List ℤ) :
    ((questionStep (twoDecStr answer) st ch).1.user_input = twoDecStr answer →
      (questionStep (twoDecStr answer) st ch).1.score = st.score + 1 ∧
      (questionStep (twoDecStr answer) st ch).2 = true) ∧
    ((questionStep (twoDecStr answer) st ch).1.user_input ≠ twoDecStr answer →
      (questionStep (twoDecStr answer) st ch).1.score = st.score ∧
      (questionStep (twoDecStr answer) st ch).2 = false) ∧
    (play_question answer st evs).score ≤ st.score + 1 ∧
    twoDecStr 3 = "3.0" ∧ "3.00" ≠ twoDecStr 3 := by
  have hc := questionStep_cases (twoDecStr answer) st ch
  refine ⟨?_, ?_, ?_, by decide, by decide⟩
  · intro heq
    rcases hc with ⟨hb, hs, _⟩ | ⟨_, _, hne⟩
    · exact ⟨hs, hb⟩
    · exact absurd heq hne
  · intro hne
    rcases hc with ⟨_, _, heq⟩ | ⟨hb, hs, _⟩
    · exact absurd heq hne
    · exact ⟨hs, hb⟩
  · unfold play_question
    exact play_question_loop_score_le (twoDecStr answer) evs
      { st with user_input := "", cursor_pos := 0 }

/-- Witness for C4: with expected answer 3 (canonical form "3.0"), buffer
"3." and cursor 2, typing the key '0' (code 48) completes the exact match,
scores exactly one point and ends the question. -/
theorem play_question_scoring_witness :
    (questionStep (twoDecStr 3)
        ⟨"3.", 2, 0, 10, true⟩ 48).1.score = (0 : ℤ) + 1 ∧
    (questionStep (twoDecStr 3) ⟨"3.", 2, 0, 10, true⟩ 48).2 = true :=
  (play_question_scoring 3 ⟨"3.", 2, 0, 10, true⟩ 48 []).1 (by decide)

/-- Counterexample to C5 as stated: with the timer already at 0 at the start
of the iteration, the loop body still consumes one more input event, and if
that keystroke completes the exact answer the score still changes: from the state
with buffer "3.", target "3.0", score 0 and timer 0, the keystroke '0'
(code 48) is consumed, the score becomes 1 and the question ends scored,
even though the active flag is cleared. -/
theorem play_question_timeout_counterexample :
    (questionStep ("3.0") ⟨"3.", 2, 0, 0, true⟩ 48).1.score = 1 ∧
    (questionStep ("3.0") ⟨"3.", 2, 0, 0, true⟩ 48).2 = true ∧
    (questionStep ("3.0") ⟨"3.", 2, 0, 0, true⟩ 48).1.is_playing = false := by
  decide

/-- C5 amended: when the remaining time is at or below 0 at the start of an
iteration, the active flag is cleared so the session transitions to ENDED at
the next loop check, but the iteration still consumes exactly one input
event, and the score can still change for that question — it either stays or
rises by exactly 1 when that final keystroke completes the exact answer;
when time remains, the active flag is untouched. In every case an iteration
of the loop reads exactly one input event. -/
theorem play_question_timeout_amended (target : String) (st : QState)
    (ch : ℤ) (evs : List ℤ) :
    (st.timer ≤ 0 →
      (questionStep target st ch).1.is_playing = false ∧
      ((questionStep target st ch).1.score = st.score ∧
          (questionStep target st ch).2 = false ∨
        (questionStep target st ch).1.score = st.score + 1 ∧
          (questionStep target st ch).2 = true)) ∧
    (0 < st.timer → (questionStep target st ch).1.is_playing = st.is_playing) ∧
    (st.is_playing = true →
      play_question_loop target st (ch :: evs) =
        (if (questionStep target st ch).2 = true then (questionStep target st ch).1
         else play_question_loop target (questionStep target st ch).1 evs)) := by
  have hc := questionStep_cases target st ch
  have hp := questionStep_is_playing target st ch
  refine ⟨?_, ?_, ?_⟩
  · intro ht
    refine ⟨?_, ?_⟩
    · rw [hp]
      unfold applyTimer
      rw [if_pos ht]
    · rcases hc with ⟨hb, hs, _⟩ | ⟨hb, hs, _⟩
      · exact Or.inr ⟨hs, hb⟩
      · exact Or.inl ⟨hs, hb⟩
  · intro ht
    rw [hp]
    unfold applyTimer
    rw [if_neg (by omega)]
  · intro hplay
    show (if st.is_playing then
        match questionStep target st ch with
        | (stNew, true) => stNew
        | (stNew, false) => play_question_loop target stNew evs
      else st) =
        (if (questionStep target st ch).2 = true then (questionStep target st ch).1
         else play_question_loop target (questionStep target st ch).1 evs)
    rw [hplay]
    cases hq : questionStep target st ch with
    | mk stNew b =>
      cases b
      · simp
      · simp

/-- Witness for the amended C5: with the timer at 0, an ignored keystroke
(code 999) is still consumed, the active flag is cleared, and the score is
unchanged. -/
theorem play_question_timeout_amended_witness :
    (questionStep ("x") ⟨"", 0, 5, 0, true⟩ 999).1.is_playing = false ∧
    ((questionStep ("x") ⟨"", 0, 5, 0, true⟩ 999).1.score = (5 : ℤ) ∧
        (questionStep ("x") ⟨"", 0, 5, 0, true⟩ 999).2 = false ∨
      (questionStep ("x") ⟨"", 0, 5, 0, true⟩ 999).1.score = (5 : ℤ) + 1 ∧
        (questionStep ("x") ⟨"", 0, 5, 0, true⟩ 999).2 = true) :=
  (play_question_timeout_amended "x" ⟨"", 0, 5, 0, true⟩ 999 []).1 (by decide)
